import Mathlib

/-!
Verification of the tool-calling agent backend (`src/app.ts`,
`src/mcp/azure-mcp-client.ts`).

The embedding is shallow: the TypeScript values of type `unknown`
(parsed JSON arguments, tool-call results) are modelled by an opaque
type parameter `V`; the external collaborators (the chat-completion
stream, `JSON.parse`, the MCP provider) are modelled as explicit
function parameters collected in an `Env`, since they are outside the
repository.  The orchestration loop, the tool-call fragment assembly,
and the MCP client state machine are translated statement by statement
from the source.  JavaScript sparse arrays (the `toolCalls` array is
indexed by the fragment's `index` field and may acquire holes) are
modelled by `List (Option ToolCallRec)` where `none` is a hole;
JavaScript string truthiness (`if (x)` skipping both `undefined` and
`""`) is modelled by the `truthy` function.
-/

/-- Decidable equality for `Except`, needed to evaluate the concrete
client-state runs below. -/
instance {e a : Type} [DecidableEq e] [DecidableEq a] : DecidableEq (Except e a)
  | .error x, .error y =>
    if h : x = y then isTrue (by rw [h])
    else isFalse (by intro hh; cases hh; exact h rfl)
  | .error _, .ok _ => isFalse (by intro h; cases h)
  | .ok _, .error _ => isFalse (by intro h; cases h)
  | .ok x, .ok y =>
    if h : x = y then isTrue (by rw [h])
    else isFalse (by intro hh; cases hh; exact h rfl)

/-- An entry of the `toolCalls` array in `runStream`:
`{ id, function: { name, arguments } }`. -/
structure ToolCallRec where
  id : String
  name : String
  arguments : String
deriving DecidableEq, Repr

/-- One element of `delta.tool_calls` in a streamed chunk: a fragment
carrying a positional `index` and optional `id`, `function.name` and
`function.arguments` pieces. -/
structure ToolCallFragment where
  index : Nat
  id : Option String
  fname : Option String
  fargs : Option String
deriving DecidableEq, Repr

/-- One streamed chunk, collapsing `chunk.choices[0]?.delta` and
`chunk.choices[0]?.finish_reason`: optional text content, an optional
list of tool-call fragments, and the finish reason carried by this
chunk (absent fields are `none`). -/
structure Chunk where
  content : Option String
  tool_calls : Option (List ToolCallFragment)
  finish_reason : Option String
deriving DecidableEq, Repr

/-- The serialized content of a tool-result message:
`JSON.stringify(result)` on success or `JSON.stringify({error: msg})`
on failure, kept symbolic. -/
inductive SerContent (V : Type) where
  | json (v : V)
  | errorObj (msg : String)
deriving DecidableEq, Repr

/-- A `role:"tool"` message body: `{ tool_call_id, content }`. -/
structure ToolMsg (V : Type) where
  id : String
  content : SerContent V
deriving DecidableEq, Repr

/-- A conversation message (tagged variant over the roles used by the
agent). The assistant variant records the accumulated text content
(`currentContent || null`) and the tool-call array, holes included. -/
inductive Message (V : Type) where
  | system (content : String)
  | user (content : String)
  | assistant (content : Option String) (tool_calls : List (Option ToolCallRec))
  | tool (tool_call_id : String) (content : SerContent V)
deriving DecidableEq, Repr

/-- An MCP tool descriptor `{ name, description, inputSchema }`. -/
structure MCPTool (V : Type) where
  name : String
  description : String
  inputSchema : V
deriving DecidableEq, Repr

/-- An OpenAI function-tool schema, as produced by `getOpenAITools`. -/
structure OpenAITool (V : Type) where
  name : String
  description : String
  parameters : V
deriving DecidableEq, Repr

/-- The observable fields of `AzureMCPClient`: whether `client` and
`transport` are non-null, the cached `tools` array, and `isConnected`. -/
structure ClientState (V : Type) where
  hasClient : Bool
  hasTransport : Bool
  tools : List (MCPTool V)
  isConnected : Bool
deriving DecidableEq, Repr

/-- The state of a freshly constructed `AzureMCPClient`: null client and
transport, empty tool cache, not connected. -/
def ClientState.initial (V : Type) : ClientState V :=
  ⟨false, false, [], false⟩

/-- `AzureMCPClient.connect`, with the two awaited external steps as
parameters: `handshake` is the outcome of `client.connect(transport)`
and `listT` the outcome of `client.listTools()` (already projected to
descriptors).  Returns the mutated state together with `.ok` on normal
return or `.error` when the corresponding `await` threw; mutations made
before a throw persist, exactly as in the source. -/
def AzureMCPClient.connect (st : ClientState V)
    (handshake : Except String Unit)
    (listT : Except String (List (MCPTool V))) :
    ClientState V × Except String Unit :=
  if st.isConnected then (st, .ok ())
  else
    let st1 : ClientState V := { st with hasTransport := true, hasClient := true }
    match handshake with
    | .error e => (st1, .error e)
    | .ok () =>
      let st2 : ClientState V := { st1 with isConnected := true }
      match listT with
      | .error e => (st2, .error e)
      | .ok ts => ({ st2 with tools := ts }, .ok ())

/-- `AzureMCPClient.callTool`: throws `"MCP client not connected"` when
`client` is null or `isConnected` is false, otherwise defers to the
provider (`client.callTool`), whose outcome is the `provider`
parameter. -/
def AzureMCPClient.callTool (st : ClientState V)
    (provider : String → V → Except String V)
    (name : String) (args : V) : Except String V :=
  if st.hasClient = false ∨ st.isConnected = false then
    .error "MCP client not connected"
  else provider name args

/-- `AzureMCPClient.getTools`: returns the cached tool list. -/
def AzureMCPClient.getTools (st : ClientState V) : List (MCPTool V) :=
  st.tools

/-- `AzureMCPClient.getOpenAITools`: maps each cached descriptor to an
OpenAI function-tool schema. -/
def AzureMCPClient.getOpenAITools (st : ClientState V) : List (OpenAITool V) :=
  st.tools.map (fun t => ⟨t.name, t.description, t.inputSchema⟩)

/-- `AzureMCPClient.disconnect`: closes the transport when present, then
nulls `client` and `transport` and clears `isConnected`.  The cached
`tools` array is not touched by the source. -/
def AzureMCPClient.disconnect (st : ClientState V) : ClientState V :=
  { st with hasClient := false, hasTransport := false, isConnected := false }

/-- JavaScript string truthiness for an optional string field: `some s`
with `s` non-empty behaves as present, `some ""` and `none` behave as
absent (both `undefined` and `""` are falsy). -/
def truthy : Option String → Option String
  | some s => if s = "" then none else some s
  | none => none

/-- Element read of a JavaScript array that may be sparse:
`toolCalls[index]`, yielding `undefined` (`none`) on a hole or past the
end. -/
def getSparse : List (Option ToolCallRec) → Nat → Option ToolCallRec
  | [], _ => none
  | x :: _, 0 => x
  | _ :: xs, n + 1 => getSparse xs n

/-- Element write `toolCalls[index] = v` on a JavaScript array:
writing past the end extends the array with holes so that the new
length is `index + 1`. -/
def setSparse : List (Option ToolCallRec) → Nat → ToolCallRec → List (Option ToolCallRec)
  | [], 0, v => [some v]
  | [], n + 1, v => none :: setSparse [] n v
  | _ :: xs, 0, v => some v :: xs
  | x :: xs, n + 1, v => x :: setSparse xs n v

/-- The per-entry effect of one fragment in the assembly loop of
`runStream`: initialise the entry with `{ id: toolCall.id || "",
function: { name: "", arguments: "" } }` when absent, then apply the
three truthiness-guarded updates (overwrite `id`, overwrite `name`,
append to `arguments`). -/
def entryStepRec (e : Option ToolCallRec) (f : ToolCallFragment) : ToolCallRec :=
  let base := e.getD ⟨(truthy f.id).getD "", "", ""⟩
  let r1 := match truthy f.id with
    | some s => { base with id := s }
    | none => base
  let r2 := match truthy f.fname with
    | some s => { r1 with name := s }
    | none => r1
  match truthy f.fargs with
  | some s => { r2 with arguments := r2.arguments ++ s }
  | none => r2

/-- Processing one fragment of `delta.tool_calls`: read the (possibly
missing) entry at the fragment's index, update it, store it back. -/
def fragStep (a : List (Option ToolCallRec)) (f : ToolCallFragment) :
    List (Option ToolCallRec) :=
  setSparse a f.index (entryStepRec (getSparse a f.index) f)

/-- Assembling a whole fragment sequence into the `toolCalls` array,
starting from the empty array. -/
def assembleFrags (fs : List ToolCallFragment) : List (Option ToolCallRec) :=
  fs.foldl fragStep []

/-- The mutable state of the per-round stream-consumption loop:
`currentContent`, the text chunks yielded so far, the `toolCalls`
array, and the last assigned finish reason. -/
structure StreamAcc where
  content : String
  emitted : List String
  toolCalls : List (Option ToolCallRec)
  finishReason : Option String
deriving DecidableEq, Repr

/-- The body of `for await (const chunk of stream)`: assign
`finishReason`, append and yield truthy text content, and fold the
chunk's fragments into the `toolCalls` array. -/
def stepChunk (acc : StreamAcc) (c : Chunk) : StreamAcc :=
  let acc1 := { acc with finishReason := c.finish_reason }
  let acc2 := match truthy c.content with
    | some s => { acc1 with content := acc1.content ++ s, emitted := acc1.emitted ++ [s] }
    | none => acc1
  match c.tool_calls with
  | some fs => { acc2 with toolCalls := fs.foldl fragStep acc2.toolCalls }
  | none => acc2

/-- Consuming one completion stream: fold every chunk over the initial
accumulator (`""`, nothing yielded, empty array, null finish reason). -/
def consumeStream (chunks : List Chunk) : StreamAcc :=
  chunks.foldl stepChunk ⟨"", [], [], none⟩

/-- The outcome of the tool-execution loop of one round: the tool
messages pushed (in push order), the (name, parsed-arguments) pairs
passed on to `mcpClient.callTool`, and whether the loop was aborted by an uncaught exception
(dereferencing a hole throws inside both the `try` body and the
`catch` handler, so the exception escapes the generator). -/
structure ExecResult (V : Type) where
  msgs : List (ToolMsg V)
  invocations : List (String × V)
  aborted : Bool
deriving DecidableEq, Repr

/-- `for (const toolCall of toolCalls) { try ... catch ... }` of
`runStream`: for a real entry, `JSON.parse` failure is caught and
recorded as a serialized error object without invoking the provider; a
provider outcome (success or failure) is recorded after invoking it; a
hole (`undefined` entry) throws uncaught — in the `try` body and again
on `toolCall.function.name` in the `catch` — so the loop stops there
with the messages pushed so far. -/
def execToolCalls (parse : String → Except String V)
    (call : String → V → Except String V) :
    List (Option ToolCallRec) → ExecResult V
  | [] => ⟨[], [], false⟩
  | none :: _ => ⟨[], [], true⟩
  | some tc :: rest =>
    match parse tc.arguments with
    | .error e =>
      let r := execToolCalls parse call rest
      ⟨⟨tc.id, .errorObj e⟩ :: r.msgs, r.invocations, r.aborted⟩
    | .ok args =>
      let r := execToolCalls parse call rest
      match call tc.name args with
      | .ok v => ⟨⟨tc.id, .json v⟩ :: r.msgs, (tc.name, args) :: r.invocations, r.aborted⟩
      | .error e => ⟨⟨tc.id, .errorObj e⟩ :: r.msgs, (tc.name, args) :: r.invocations, r.aborted⟩

/-- The environment of one turn: the agent's system prompt, the tool
catalog obtained from `getOpenAITools`, and the three external
collaborators — the completion API (conversation and advertised tools
to the stream's chunks), `JSON.parse`, and the connected MCP
provider reached through `mcpClient.callTool`. -/
structure Env (V : Type) where
  systemPrompt : String
  tools : List (OpenAITool V)
  complete : List (Message V) → Option (List (OpenAITool V)) → List Chunk
  parse : String → Except String V
  call : String → V → Except String V

/-- The `tools` field of the completion request:
`tools.length > 0 ? tools : undefined`. -/
def toolsArg (env : Env V) : Option (List (OpenAITool V)) :=
  if env.tools.length > 0 then some env.tools else none

/-- The consumed stream of the completion requested over a given
conversation. -/
def roundOf (env : Env V) (msgs : List (Message V)) : StreamAcc :=
  consumeStream (env.complete msgs (toolsArg env))

/-- The assistant message pushed before executing a round's tool calls:
`content: currentContent || null` plus the accumulated tool-call
array. -/
def mkAssistant (V : Type) (r : StreamAcc) : Message V :=
  .assistant (truthy (some r.content)) r.toolCalls

/-- The tool-execution outcome of a round under an environment. -/
def execOf (env : Env V) (r : StreamAcc) : ExecResult V :=
  execToolCalls env.parse env.call r.toolCalls

/-- The conversation passed to the next completion request after a tool
round: previous messages, then the assistant message, then one tool
message per execution-loop push. -/
def nextMsgs (env : Env V) (msgs : List (Message V)) : List (Message V) :=
  msgs ++ [mkAssistant V (roundOf env msgs)] ++
    ((execOf env (roundOf env msgs)).msgs.map (fun m => .tool m.id m.content))

/-- The marker chunk yielded when entering a tool round. -/
def toolMarker : String := "\n\n🔧 *Calling Azure tools...*\n\n"

/-- The observable outcome of (a prefix of) one turn: the yielded text
chunks in order, the final conversation, the conversation snapshots at
which completion requests were issued, the number of tool rounds
entered, whether the generator threw (uncaught hole dereference), and
whether the fuel ran out before the loop finished. -/
structure RunResult (V : Type) where
  output : List String
  messages : List (Message V)
  requests : List (List (Message V))
  rounds : Nat
  aborted : Bool
  outOfFuel : Bool
deriving DecidableEq, Repr

/-- The `while (true)` loop of `runStream`, with explicit fuel (the
source places no bound on the number of rounds; every theorem below
quantifies over the fuel or uses enough of it).  Each iteration
requests a completion, streams it, and either stops (finish reason not
`"tool_calls"`, or an empty `toolCalls` array), aborts (uncaught throw
in the execution loop), or executes the round and continues. -/
def runLoop (env : Env V) : Nat → List (Message V) → RunResult V
  | 0, msgs => ⟨[], msgs, [], 0, false, true⟩
  | fuel + 1, msgs =>
    let r := roundOf env msgs
    if r.finishReason ≠ some "tool_calls" ∨ r.toolCalls.length = 0 then
      ⟨r.emitted, msgs, [msgs], 0, false, false⟩
    else
      let ex := execOf env r
      if ex.aborted then
        ⟨r.emitted ++ [toolMarker], nextMsgs env msgs, [msgs], 1, true, false⟩
      else
        let rest := runLoop env fuel (nextMsgs env msgs)
        ⟨r.emitted ++ [toolMarker] ++ rest.output, rest.messages,
          msgs :: rest.requests, 1 + rest.rounds, rest.aborted, rest.outOfFuel⟩

/-- The initial conversation of `runStream`: system prompt, caller
history, then the user message. -/
def initMsgs (env : Env V) (history : List (Message V)) (userMessage : String) :
    List (Message V) :=
  [.system env.systemPrompt] ++ history ++ [.user userMessage]

/-- `AzureMCPAgent.runStream` (after `initialize()` resolved): drive the
round loop from the seeded conversation. -/
def AzureMCPAgent.runStream (env : Env V) (fuel : Nat)
    (history : List (Message V)) (userMessage : String) : RunResult V :=
  runLoop env fuel (initMsgs env history userMessage)

/-- `AzureMCPAgent.run`: drain `runStream(userMessage)` (no history),
folding `result += chunk`; a throw escaping the generator also escapes
`run` (`none`). -/
def AzureMCPAgent.run (env : Env V) (fuel : Nat) (userMessage : String) :
    Option String :=
  let r := AzureMCPAgent.runStream env fuel [] userMessage
  if r.aborted then none else some (r.output.foldl (fun acc c => acc ++ c) "")

/-- Spec-side description of one assembled field: the last
truthily-supplied value among the fragments of one index, defaulting to
`""`. -/
def specField (l : List String) : String :=
  l.getLast?.getD ""

/-- Spec-side description of the assembled request at one index: `none`
when no fragment mentions the index; otherwise the identifier and the
function name are the last truthily-supplied values (default `""`) and
the argument string is the concatenation, in arrival order, of the
truthily-supplied argument chunks. -/
def specAssembleAt (fs : List ToolCallFragment) : Option ToolCallRec :=
  match fs with
  | [] => none
  | _ :: _ =>
    some ⟨specField (fs.filterMap (fun f => truthy f.id)),
          specField (fs.filterMap (fun f => truthy f.fname)),
          String.join (fs.filterMap (fun f => truthy f.fargs))⟩

/-- Folding the per-entry update over a fragment list, from a given
entry: the code-side view of what happens to one index of the array. -/
def entriesFold (e : Option ToolCallRec) (fs : List ToolCallFragment) :
    Option ToolCallRec :=
  fs.foldl (fun e f => some (entryStepRec e f)) e

/-- A stream that answers with plain text and finish reason `"stop"`,
over an empty tool catalog. -/
def envStop : Env String :=
  { systemPrompt := "sys", tools := [],
    complete := fun _ _ => [⟨some "hello", none, some "stop"⟩],
    parse := fun s => .ok s, call := fun _ a => .ok a }

/-- A stream that always asks for one well-formed tool call at index 0
(catalog with one tool, parse and provider succeed). -/
def envGo : Env String :=
  { systemPrompt := "sys", tools := [⟨"t1", "d", "sch"⟩],
    complete := fun _ _ =>
      [⟨none, some [⟨0, some "id1", some "t1", some "\x7b\x7d"⟩], some "tool_calls"⟩],
    parse := fun s => .ok s, call := fun _ a => .ok a }

/-- An empty tool catalog combined with an adversarial stream that
nevertheless reports one tool-call fragment and finish reason
`"tool_calls"`. -/
def envNoTools : Env String :=
  { systemPrompt := "sys", tools := [],
    complete := fun _ _ =>
      [⟨none, some [⟨0, some "id1", some "t1", some "\x7b\x7d"⟩], some "tool_calls"⟩],
    parse := fun s => .ok s, call := fun _ a => .ok a }

/-- A stream whose only tool-call fragment sits at index 1, leaving a
hole at index 0 of the accumulated array. -/
def envHoleA : Env String :=
  { systemPrompt := "s", tools := [⟨"toolB", "d", "sch"⟩],
    complete := fun _ _ =>
      [⟨none, some [⟨1, some "idB", some "toolB", some "\x7b\x7d"⟩], some "tool_calls"⟩],
    parse := fun s => .ok s, call := fun _ a => .ok a }

/-- A stream whose only tool-call fragment sits at index 2, leaving
holes at indices 0 and 1 of the accumulated array. -/
def envHoleB : Env String :=
  { systemPrompt := "s2", tools := [⟨"toolC", "d", "sch"⟩],
    complete := fun _ _ =>
      [⟨none, some [⟨2, some "idC", some "toolC", some "\x7b\x7d"⟩], some "tool_calls"⟩],
    parse := fun s => .ok s, call := fun _ a => .ok a }

/-- Two fragments at the same index that both supply an identifier. -/
def fragA : ToolCallFragment := ⟨0, some "a", some "f", some "x"⟩

/-- Second fragment at index 0, supplying a different identifier and a
continuation of the argument string. -/
def fragB : ToolCallFragment := ⟨0, some "b", none, some "y"⟩

/-- A sample tool descriptor. -/
def sampleTool : MCPTool String := ⟨"list_storage_accounts", "lists accounts", "sch"⟩

/-- The spec's description of the non-streaming mode: the final text is
the concatenation, in emission order, of all chunks produced by fully
draining the streaming mode on the same user message with no history;
an uncaught throw of the streaming mode is an uncaught throw of the
whole turn. -/
def specDrainedText (env : Env V) (fuel : Nat) (userMessage : String) : Option String :=
  if (AzureMCPAgent.runStream env fuel [] userMessage).aborted then none
  else some (String.join (AzureMCPAgent.runStream env fuel [] userMessage).output)

theorem getSparse_setSparse (j : Nat) :
    ∀ (a : List (Option ToolCallRec)) (v : ToolCallRec) (i : Nat),
      getSparse (setSparse a j v) i = if i = j then some v else getSparse a i := by
  induction j with
  | zero =>
    intro a v i
    cases a <;> cases i <;> simp [setSparse, getSparse]
  | succ j ih =>
    intro a v i
    cases a <;> cases i <;> simp [setSparse, getSparse, ih]

theorem getSparse_fragStep (a : List (Option ToolCallRec)) (f : ToolCallFragment)
    (i : Nat) :
    getSparse (fragStep a f) i =
      if f.index = i then some (entryStepRec (getSparse a f.index) f)
      else getSparse a i := by
  unfold fragStep
  rw [getSparse_setSparse]
  by_cases h : i = f.index
  · simp [h]
  · simp [h, Ne.symm h]

theorem getSparse_foldl_fragStep (fs : List ToolCallFragment) :
    ∀ (a : List (Option ToolCallRec)) (i : Nat),
      getSparse (fs.foldl fragStep a) i =
        entriesFold (getSparse a i) (fs.filter (fun f => f.index = i)) := by
  induction fs with
  | nil => intro a i; rfl
  | cons f fs ih =>
    intro a i
    simp only [List.foldl_cons, ih, List.filter_cons]
    by_cases h : f.index = i
    · simp [h, getSparse_fragStep, entriesFold]
    · simp [h, getSparse_fragStep, entriesFold]

theorem getSparse_assembleFrags (fs : List ToolCallFragment) (i : Nat) :
    getSparse (assembleFrags fs) i =
      entriesFold none (fs.filter (fun f => f.index = i)) := by
  unfold assembleFrags
  rw [getSparse_foldl_fragStep]
  rfl

theorem getLastD_cons (s d : String) (L : List String) :
    (s :: L).getLast?.getD d = L.getLast?.getD s := by
  cases L <;> simp [List.getLast?]

theorem str_foldl_append (L : List String) :
    ∀ a : String, L.foldl (fun r s => r ++ s) a =
      a ++ L.foldl (fun r s => r ++ s) "" := by
  induction L with
  | nil => intro a; simp
  | cons s L ih =>
    intro a
    simp only [List.foldl_cons]
    rw [ih (a ++ s), ih ("" ++ s)]
    simp [String.append_assoc]

theorem str_join_cons (s : String) (L : List String) :
    String.join (s :: L) = s ++ String.join L := by
  simp only [String.join, List.foldl_cons]
  rw [str_foldl_append L ("" ++ s)]
  simp

theorem entriesFold_some (fs : List ToolCallFragment) :
    ∀ r : ToolCallRec,
      entriesFold (some r) fs =
        some ⟨((fs.filterMap (fun f => truthy f.id)).getLast?).getD r.id,
              ((fs.filterMap (fun f => truthy f.fname)).getLast?).getD r.name,
              r.arguments ++ String.join (fs.filterMap (fun f => truthy f.fargs))⟩ := by
  induction fs with
  | nil => intro r; simp [entriesFold, String.join]
  | cons f fs ih =>
    intro r
    have step : entriesFold (some r) (f :: fs) =
        entriesFold (some (entryStepRec (some r) f)) fs := rfl
    rw [step, ih]
    simp only [List.filterMap_cons]
    cases hid : truthy f.id <;> cases hnm : truthy f.fname <;> cases hag : truthy f.fargs <;>
      simp [entryStepRec, hid, hnm, hag, getLastD_cons, str_join_cons, String.append_assoc]

theorem entriesFold_none_eq_spec (fs : List ToolCallFragment) :
    entriesFold none fs = specAssembleAt fs := by
  cases fs with
  | nil => rfl
  | cons f fs =>
    have step : entriesFold none (f :: fs) =
        entriesFold (some (entryStepRec none f)) fs := rfl
    rw [step, entriesFold_some]
    simp only [specAssembleAt, specField, List.filterMap_cons]
    cases hid : truthy f.id <;> cases hnm : truthy f.fname <;> cases hag : truthy f.fargs <;>
      simp [entryStepRec, hid, hnm, hag, getLastD_cons, str_join_cons]

theorem execToolCalls_map_some (parse : String → Except String V)
    (call : String → V → Except String V) (tcs : List ToolCallRec) :
    (execToolCalls parse call (tcs.map some)).msgs.map ToolMsg.id =
        tcs.map ToolCallRec.id ∧
      (execToolCalls parse call (tcs.map some)).aborted = false := by
  induction tcs with
  | nil => exact ⟨rfl, rfl⟩
  | cons tc tcs ih =>
    simp only [List.map_cons]
    cases hp : parse tc.arguments with
    | error e => simpa [execToolCalls, hp] using ih
    | ok args =>
      cases hc : call tc.name args with
      | ok v => simpa [execToolCalls, hp, hc] using ih
      | error e => simpa [execToolCalls, hp, hc] using ih

theorem execToolCalls_aborted_iff (parse : String → Except String V)
    (call : String → V → Except String V)
    (entries : List (Option ToolCallRec)) :
    (execToolCalls parse call entries).aborted = true ↔ none ∈ entries := by
  induction entries with
  | nil => simp [execToolCalls]
  | cons e rest ih =>
    cases e with
    | none => simp [execToolCalls]
    | some tc =>
      cases hp : parse tc.arguments with
      | error m => simpa [execToolCalls, hp] using ih
      | ok args =>
        cases hc : call tc.name args with
        | ok v => simpa [execToolCalls, hp, hc] using ih
        | error m => simpa [execToolCalls, hp, hc] using ih

theorem runLoop_requests_head (env : Env V) (fuel : Nat) (msgs : List (Message V)) :
    (runLoop env (fuel + 1) msgs).requests.head? = some msgs := by
  show (runLoop env (fuel + 1) msgs).requests.head? = some msgs
  unfold runLoop
  dsimp only
  split
  · rfl
  · split <;> rfl

theorem runLoop_chain (env : Env V) (fuel : Nat) :
    ∀ msgs : List (Message V),
      List.Chain' (fun a b => b = nextMsgs env a) (runLoop env fuel msgs).requests := by
  induction fuel with
  | zero => intro msgs; simp [runLoop]
  | succ fuel ih =>
    intro msgs
    unfold runLoop
    dsimp only
    split
    · simp
    · split
      · simp
      · rw [List.chain'_cons']
        refine ⟨?_, ih (nextMsgs env msgs)⟩
        intro b hb
        cases fuel with
        | zero => simp [runLoop] at hb
        | succ fuel' =>
          rw [runLoop_requests_head] at hb
          simp only [Option.mem_def, Option.some.injEq] at hb
          exact hb.symm

theorem runLoop_succ_eq (env : Env V) (fuel : Nat) (msgs : List (Message V)) :
    runLoop env (fuel + 1) msgs =
      if (roundOf env msgs).finishReason ≠ some "tool_calls" ∨
          (roundOf env msgs).toolCalls.length = 0 then
        ⟨(roundOf env msgs).emitted, msgs, [msgs], 0, false, false⟩
      else if (execOf env (roundOf env msgs)).aborted = true then
        ⟨(roundOf env msgs).emitted ++ [toolMarker], nextMsgs env msgs, [msgs],
          1, true, false⟩
      else
        ⟨(roundOf env msgs).emitted ++ [toolMarker] ++
            (runLoop env fuel (nextMsgs env msgs)).output,
          (runLoop env fuel (nextMsgs env msgs)).messages,
          msgs :: (runLoop env fuel (nextMsgs env msgs)).requests,
          1 + (runLoop env fuel (nextMsgs env msgs)).rounds,
          (runLoop env fuel (nextMsgs env msgs)).aborted,
          (runLoop env fuel (nextMsgs env msgs)).outOfFuel⟩ := rfl

theorem runLoop_break_eq (env : Env V) (fuel : Nat) (msgs : List (Message V))
    (h : (roundOf env msgs).finishReason ≠ some "tool_calls" ∨
      (roundOf env msgs).toolCalls.length = 0) :
    runLoop env (fuel + 1) msgs =
      ⟨(roundOf env msgs).emitted, msgs, [msgs], 0, false, false⟩ := by
  rw [runLoop_succ_eq, if_pos h]

theorem runLoop_enter_eq (env : Env V) (fuel : Nat) (msgs : List (Message V))
    (h1 : (roundOf env msgs).finishReason = some "tool_calls")
    (h2 : (roundOf env msgs).toolCalls.length ≠ 0)
    (h3 : (execOf env (roundOf env msgs)).aborted = false) :
    runLoop env (fuel + 1) msgs =
      ⟨(roundOf env msgs).emitted ++ [toolMarker] ++
          (runLoop env fuel (nextMsgs env msgs)).output,
        (runLoop env fuel (nextMsgs env msgs)).messages,
        msgs :: (runLoop env fuel (nextMsgs env msgs)).requests,
        1 + (runLoop env fuel (nextMsgs env msgs)).rounds,
        (runLoop env fuel (nextMsgs env msgs)).aborted,
        (runLoop env fuel (nextMsgs env msgs)).outOfFuel⟩ := by
  rw [runLoop_succ_eq, if_neg (by tauto), if_neg (by simp [h3])]

theorem runLoop_abort_eq (env : Env V) (fuel : Nat) (msgs : List (Message V))
    (h1 : (roundOf env msgs).finishReason = some "tool_calls")
    (h2 : (roundOf env msgs).toolCalls.length ≠ 0)
    (h3 : (execOf env (roundOf env msgs)).aborted = true) :
    runLoop env (fuel + 1) msgs =
      ⟨(roundOf env msgs).emitted ++ [toolMarker], nextMsgs env msgs, [msgs],
        1, true, false⟩ := by
  rw [runLoop_succ_eq, if_neg (by tauto), if_pos h3]

theorem runLoop_rounds_pos_iff (env : Env V) (fuel : Nat) (msgs : List (Message V)) :
    1 ≤ (runLoop env (fuel + 1) msgs).rounds ↔
      ((roundOf env msgs).finishReason = some "tool_calls" ∧
        (roundOf env msgs).toolCalls.length ≠ 0) := by
  by_cases hc : (roundOf env msgs).finishReason = some "tool_calls" ∧
      (roundOf env msgs).toolCalls.length ≠ 0
  · rw [runLoop_succ_eq, if_neg (by tauto)]
    by_cases hab : (execOf env (roundOf env msgs)).aborted = true
    · rw [if_pos hab]
      exact iff_of_true (le_refl 1) hc
    · rw [if_neg hab]
      exact iff_of_true (Nat.le_add_right 1 _) hc
  · rw [runLoop_succ_eq, if_pos (by tauto)]
    exact iff_of_false (fun h => by simp at h) hc

/-- C1 (amended): for every tool round whose accumulated `toolCalls`
array has no holes (every streamed fragment index was filled, the
normal contiguous case), each accumulated ToolCallRequest yields
exactly one tool-result message, the messages carry the requests'
identifiers in the same relative order whatever the parse and provider
outcomes are (so one failed invocation never prevents the remaining
ones), and the conversation sent to each next completion request is the
previous one extended by the assistant message and exactly those
tool-result messages. -/
theorem C1_round_one_result_per_request :
    (∀ (V : Type) (parse : String → Except String V)
        (call : String → V → Except String V) (tcs : List ToolCallRec),
      (execToolCalls parse call (tcs.map some)).msgs.map ToolMsg.id =
          tcs.map ToolCallRec.id ∧
        (execToolCalls parse call (tcs.map some)).aborted = false) ∧
    (∀ (V : Type) (env : Env V) (fuel : Nat) (msgs : List (Message V)),
      List.Chain' (fun a b => b = nextMsgs env a) (runLoop env fuel msgs).requests) :=
  ⟨fun _ parse call tcs => execToolCalls_map_some parse call tcs,
   fun _ env fuel msgs => runLoop_chain env fuel msgs⟩

/-- C1 counterexample: a stream whose only fragment sits at index 1
accumulates one real ToolCallRequest (`idB`) plus a hole; the tool
round aborts the whole turn and the accumulated request receives no
tool-result message at all, so the claim as stated (over every tool
round) fails. -/
theorem C1_counterexample_hole_round :
    (roundOf envHoleA (initMsgs envHoleA [] "m")).toolCalls =
        [none, some ⟨"idB", "toolB", "\x7b\x7d"⟩] ∧
      (AzureMCPAgent.runStream envHoleA 2 [] "m").aborted = true ∧
      (AzureMCPAgent.runStream envHoleA 2 [] "m").messages =
        [.system "s", .user "m",
         .assistant none [none, some ⟨"idB", "toolB", "\x7b\x7d"⟩]] := by
  decide

/-- C2 (amended): the entry assembled at a position depends only on the
fragments carrying that positional index, in arrival order — so
interleaving with other positions and any field-completeness order is
tolerated, and argument chunks are concatenated in arrival order — but
the identifier and the function name are the ones supplied by the LAST
fragment at that index that (truthily) supplies them, not the first. -/
theorem C2_assembly_by_position (fs : List ToolCallFragment) (i : Nat) :
    getSparse (assembleFrags fs) i =
      specAssembleAt (fs.filter (fun f => f.index = i)) := by
  rw [getSparse_assembleFrags, entriesFold_none_eq_spec]

/-- C2 counterexample: two fragments at index 0 both supply an
identifier (`"a"` then `"b"`); the assembled request carries `"b"`,
the last supplied one, not `"a"` as the claim's first-supplier rule
states. -/
theorem C2_counterexample_last_id_wins :
    assembleFrags [fragA, fragB] = [some ⟨"b", "f", "xy"⟩] ∧
      fragA.index = fragB.index ∧ truthy fragA.id = some "a" ∧
      ¬((getSparse (assembleFrags [fragA, fragB]) 0).map ToolCallRec.id = some "a") := by
  decide

/-- C3: the loop enters a further round exactly when the terminal
finish reason is `"tool_calls"` and at least one entry was accumulated;
under any other finish reason or an empty accumulation it stops with
the streamed text as the whole output and the conversation untouched;
and when it enters a round whose execution does not abort, a second
completion request is issued. -/
theorem C3_round_decision (env : Env V) (fuel : Nat) (msgs : List (Message V)) :
    (1 ≤ (runLoop env (fuel + 1) msgs).rounds ↔
      ((roundOf env msgs).finishReason = some "tool_calls" ∧
        (roundOf env msgs).toolCalls.length ≠ 0)) ∧
    ((roundOf env msgs).finishReason ≠ some "tool_calls" ∨
        (roundOf env msgs).toolCalls.length = 0 →
      runLoop env (fuel + 1) msgs =
        ⟨(roundOf env msgs).emitted, msgs, [msgs], 0, false, false⟩) ∧
    ((roundOf env msgs).finishReason = some "tool_calls" →
      (roundOf env msgs).toolCalls.length ≠ 0 →
      (execOf env (roundOf env msgs)).aborted = false →
      2 ≤ (runLoop env (fuel + 2) msgs).requests.length) := by
  refine ⟨runLoop_rounds_pos_iff env fuel msgs, runLoop_break_eq env fuel msgs, ?_⟩
  intro h1 h2 h3
  rw [runLoop_enter_eq env (fuel + 1) msgs h1 h2 h3]
  have hh := runLoop_requests_head env fuel (nextMsgs env msgs)
  cases hrest : (runLoop env (fuel + 1) (nextMsgs env msgs)).requests with
  | nil => rw [hrest] at hh; simp at hh
  | cons a t => simp [hrest]

/-- C3 witness: with a plain-stop stream the loop stops after one
request and the emitted text is the whole output; with a tool-calling
stream whose execution succeeds, a second completion request is
issued. -/
theorem C3_round_decision_witness :
    runLoop envStop 1 (initMsgs envStop [] "q") =
        ⟨["hello"], initMsgs envStop [] "q", [initMsgs envStop [] "q"],
          0, false, false⟩ ∧
      2 ≤ (runLoop envGo 2 (initMsgs envGo [] "q")).requests.length :=
  ⟨(C3_round_decision envStop 0 (initMsgs envStop [] "q")).2.1 (by decide),
   (C3_round_decision envGo 0 (initMsgs envGo [] "q")).2.2
     (by decide) (by decide) (by decide)⟩

/-- C4: the non-streaming mode returns exactly the concatenation, in
emission order, of all chunks produced by fully draining the streaming
mode on the same message (`run` folds `result += chunk` over the very
chunks `runStream` yields, and rethrows its uncaught throw), so for
every completion behaviour — tool-calling or not — the two modes
produce identical final text. -/
theorem C4_run_refines_runStream (env : Env V) (fuel : Nat) (msg : String) :
    AzureMCPAgent.run env fuel msg = specDrainedText env fuel msg := rfl

/-- C5 (amended): with an empty catalog the completion request
advertises no tools (`tools` is omitted, i.e. `none`), and the turn
never enters a tool round PROVIDED the stream then never reports finish
reason `"tool_calls"` together with a non-empty accumulation — the loop
itself never consults the catalog when deciding to enter a tool
round. -/
theorem C5_empty_catalog_no_round (env : Env V) (h : env.tools = []) :
    toolsArg env = none ∧
      ((∀ ms : List (Message V),
          (roundOf env ms).finishReason ≠ some "tool_calls" ∨
            (roundOf env ms).toolCalls.length = 0) →
        ∀ fuel msgs, (runLoop env fuel msgs).rounds = 0) := by
  refine ⟨by simp [toolsArg, h], ?_⟩
  intro hstream fuel msgs
  cases fuel with
  | zero => rfl
  | succ fuel => rw [runLoop_break_eq env fuel msgs (hstream msgs)]

theorem envStop_round_finish (ms : List (Message String)) :
    (roundOf envStop ms).finishReason = some "stop" := rfl

/-- C5 witness: for the plain-stop environment with empty catalog, no
tools are advertised and a three-round fuel budget still enters zero
tool rounds. -/
theorem C5_empty_catalog_no_round_witness :
    toolsArg envStop = none ∧
      (AzureMCPAgent.runStream envStop 3 [] "hi").rounds = 0 :=
  ⟨(C5_empty_catalog_no_round envStop rfl).1,
   (C5_empty_catalog_no_round envStop rfl).2
     (fun ms => Or.inl (envStop_round_finish ms ▸ (by decide))) 3
     (initMsgs envStop [] "hi")⟩

/-- C5 counterexample: with an empty catalog but a stream that
nevertheless reports a tool-call fragment and finish reason
`"tool_calls"`, the loop does enter a tool round and emits the
tool-round marker — the claim's "regardless of what events the model's
stream produces" fails on the code, which never rechecks the catalog. -/
theorem C5_counterexample_adversarial_stream :
    envNoTools.tools = [] ∧
      (AzureMCPAgent.runStream envNoTools 1 [] "q").rounds = 1 ∧
      (AzureMCPAgent.runStream envNoTools 1 [] "q").output = [toolMarker] := by
  decide

/-- C6 (amended): `connect` on an already-connected client is a no-op;
a transport-handshake failure leaves the client not connected with its
tool cache unchanged; but when catalog retrieval fails after a
successful handshake, `connect` throws while leaving the client marked
connected with its previous (initially empty) tool cache — a partial
state; only a fully successful call caches the new catalog. -/
theorem C6_connect_states (st : ClientState V) (hs : Except String Unit)
    (lt : Except String (List (MCPTool V))) :
    (st.isConnected = true → AzureMCPClient.connect st hs lt = (st, .ok ())) ∧
    (st.isConnected = false → ∀ e, hs = .error e →
      AzureMCPClient.connect st hs lt =
        ({ st with hasTransport := true, hasClient := true }, .error e)) ∧
    (st.isConnected = false → ∀ e, hs = .ok () → lt = .error e →
      AzureMCPClient.connect st hs lt =
        ({ st with hasTransport := true, hasClient := true, isConnected := true },
          .error e)) ∧
    (st.isConnected = false → ∀ ts, hs = .ok () → lt = .ok ts →
      AzureMCPClient.connect st hs lt =
        ({ st with
            hasTransport := true, hasClient := true, isConnected := true,
            tools := ts }, .ok ())) := by
  refine ⟨fun hconn => ?_, fun hnc e he => ?_, fun hnc e hok hlt => ?_,
    fun hnc ts hok hlt => ?_⟩
  · simp [AzureMCPClient.connect, hconn]
  · subst he; simp [AzureMCPClient.connect, hnc]
  · subst hok; subst hlt; simp [AzureMCPClient.connect, hnc]
  · subst hok; subst hlt; simp [AzureMCPClient.connect, hnc]

/-- C6 witness: concrete runs of all four behaviours from the initial
state (and from a connected state for the no-op). -/
theorem C6_connect_states_witness :
    AzureMCPClient.connect (ClientState.initial String) (.error "down")
        (.ok [sampleTool]) =
      (⟨true, true, [], false⟩, .error "down") ∧
    AzureMCPClient.connect (ClientState.initial String) (.ok ())
        (.ok [sampleTool]) =
      (⟨true, true, [sampleTool], true⟩, .ok ()) ∧
    AzureMCPClient.connect (⟨true, true, [sampleTool], true⟩ : ClientState String)
        (.error "down") (.error "down2") =
      (⟨true, true, [sampleTool], true⟩, .ok ()) :=
  ⟨(C6_connect_states (ClientState.initial String) (.error "down")
      (.ok [sampleTool])).2.1 rfl "down" rfl,
   (C6_connect_states (ClientState.initial String) (.ok ())
      (.ok [sampleTool])).2.2.2 rfl [sampleTool] rfl rfl,
   (C6_connect_states (⟨true, true, [sampleTool], true⟩ : ClientState String)
      (.error "down") (.error "down2")).1 rfl⟩

/-- C6 counterexample: from the initial state, a successful transport
handshake followed by a failing catalog retrieval makes `connect`
throw while leaving `isConnected = true` — the client is NOT left "not
connected with no partial state" as the claim requires. -/
theorem C6_counterexample_partial_state :
    (AzureMCPClient.connect (ClientState.initial String) (.ok ())
        (.error "listTools failed")).2 = .error "listTools failed" ∧
      (AzureMCPClient.connect (ClientState.initial String) (.ok ())
        (.error "listTools failed")).1.isConnected = true ∧
      (AzureMCPClient.connect (ClientState.initial String) (.ok ())
        (.error "listTools failed")).1.tools = [] := by
  decide

/-- C7 (amended): `disconnect` is idempotent and transitions the client
to the disconnected state, but it does NOT reset the cached tool list;
`getTools` returns the empty list before the first successful
`connect` (initial state), while after a `disconnect` it keeps
returning the previously cached catalog. -/
theorem C7_disconnect_behaviour (st : ClientState V) :
    AzureMCPClient.disconnect (AzureMCPClient.disconnect st) =
        AzureMCPClient.disconnect st ∧
      (AzureMCPClient.disconnect st).isConnected = false ∧
      (AzureMCPClient.disconnect st).hasClient = false ∧
      (AzureMCPClient.disconnect st).hasTransport = false ∧
      AzureMCPClient.getTools (AzureMCPClient.disconnect st) =
        AzureMCPClient.getTools st ∧
      AzureMCPClient.getTools (ClientState.initial V) = [] :=
  ⟨rfl, rfl, rfl, rfl, rfl, rfl⟩

/-- C7 counterexample: connect caching one tool, then disconnect: the
client is not connected, yet `getTools` still returns that tool instead
of the empty list the claim requires. -/
theorem C7_counterexample_stale_tools :
    (AzureMCPClient.disconnect
        (AzureMCPClient.connect (ClientState.initial String) (.ok ())
          (.ok [sampleTool])).1).isConnected = false ∧
      AzureMCPClient.getTools
          (AzureMCPClient.disconnect
            (AzureMCPClient.connect (ClientState.initial String) (.ok ())
              (.ok [sampleTool])).1) = [sampleTool] ∧
      [sampleTool] ≠ ([] : List (MCPTool String)) := by
  decide

/-- C8: when the client is not connected, `callTool` fails with the
catchable per-call error `"MCP client not connected"`; and any error
outcome of `callTool` (connection down or provider-reported failure) is
caught by the orchestration loop's per-call handler, which appends a
serialized error-object tool message for that call while the remaining
calls of the round are processed unchanged — the turn is not
aborted. -/
theorem C8_calltool_error_is_per_call (st : ClientState V)
    (provider : String → V → Except String V) (parse : String → Except String V)
    (tc : ToolCallRec) (rest : List (Option ToolCallRec)) (args : V) (e : String) :
    (st.isConnected = false →
      AzureMCPClient.callTool st provider tc.name args =
        .error "MCP client not connected") ∧
    (parse tc.arguments = .ok args →
      AzureMCPClient.callTool st provider tc.name args = .error e →
      (execToolCalls parse (AzureMCPClient.callTool st provider)
          (some tc :: rest)).msgs =
        ⟨tc.id, .errorObj e⟩ ::
          (execToolCalls parse (AzureMCPClient.callTool st provider) rest).msgs ∧
      (execToolCalls parse (AzureMCPClient.callTool st provider)
          (some tc :: rest)).aborted =
        (execToolCalls parse (AzureMCPClient.callTool st provider) rest).aborted) := by
  constructor
  · intro h; simp [AzureMCPClient.callTool, h]
  · intro hp hc
    constructor <;> simp [execToolCalls, hp, hc]

/-- C8 witness: the disconnected initial client makes `callTool` fail,
and the execution loop turns that failure into an error tool message
for the affected call. -/
theorem C8_calltool_error_is_per_call_witness :
    AzureMCPClient.callTool (ClientState.initial String) (fun _ a => .ok a)
        "t1" "x" = .error "MCP client not connected" ∧
      (execToolCalls (fun s => (.ok s : Except String String))
          (AzureMCPClient.callTool (ClientState.initial String) (fun _ a => .ok a))
          [some ⟨"id9", "t1", "x"⟩]).msgs =
        [⟨"id9", .errorObj "MCP client not connected"⟩] :=
  ⟨(C8_calltool_error_is_per_call (ClientState.initial String) (fun _ a => .ok a)
      (fun s => (.ok s : Except String String)) ⟨"id9", "t1", "x"⟩ [] "x"
      "MCP client not connected").1 rfl,
   ((C8_calltool_error_is_per_call (ClientState.initial String) (fun _ a => .ok a)
      (fun s => (.ok s : Except String String)) ⟨"id9", "t1", "x"⟩ [] "x"
      "MCP client not connected").2 rfl (by decide)).1⟩

/-- C9: when the accumulated argument string of a request does not
parse as JSON, the execution loop appends a tool message whose content
is the serialized error object, performs no provider invocation for
that request, and continues exactly as it would on the remaining
entries. -/
theorem C9_invalid_json_skips_invocation (parse : String → Except String V)
    (call : String → V → Except String V) (tc : ToolCallRec)
    (rest : List (Option ToolCallRec)) (e : String)
    (h : parse tc.arguments = .error e) :
    execToolCalls parse call (some tc :: rest) =
      ⟨⟨tc.id, .errorObj e⟩ :: (execToolCalls parse call rest).msgs,
        (execToolCalls parse call rest).invocations,
        (execToolCalls parse call rest).aborted⟩ := by
  simp [execToolCalls, h]

/-- C9 witness: a single request whose arguments fail to parse yields
exactly one error tool message, an empty invocation list, and no
abort. -/
theorem C9_invalid_json_skips_invocation_witness :
    execToolCalls (fun _ => (.error "Unexpected token" : Except String String))
        (fun _ a => .ok a) [some ⟨"id1", "t1", "not json"⟩] =
      ⟨[⟨"id1", .errorObj "Unexpected token"⟩], [], false⟩ :=
  C9_invalid_json_skips_invocation
    (fun _ => (.error "Unexpected token" : Except String String))
    (fun _ a => .ok a) ⟨"id1", "t1", "not json"⟩ [] "Unexpected token" rfl

/-- C10: the execution loop aborts (uncaught throw — the hole is
dereferenced in the `try` body and again in the `catch` handler)
exactly when the accumulated array contains a hole, i.e. when the
streamed fragment indices were not contiguous from 0; concretely, a
stream whose only fragment sits at index 2 aborts the turn with no
tool-result message appended. -/
theorem C10_contiguity_precondition :
    (∀ (V : Type) (parse : String → Except String V)
        (call : String → V → Except String V)
        (entries : List (Option ToolCallRec)),
      (execToolCalls parse call entries).aborted = true ↔ none ∈ entries) ∧
    ((AzureMCPAgent.runStream envHoleB 2 [] "x").aborted = true ∧
      (AzureMCPAgent.runStream envHoleB 2 [] "x").messages =
        [.system "s2", .user "x",
         .assistant none [none, none, some ⟨"idC", "toolC", "\x7b\x7d"⟩]]) :=
  ⟨fun _ parse call entries => execToolCalls_aborted_iff parse call entries,
   by decide⟩
